import Mathlib

/-!
# Verification of the bounded-memory / retrieval engine of the DM Discord bot

Shallow embedding of the Python handlers:

* `src/handlers/DatabaseHandler.py`   — transcript store and consolidation
* `src/handlers/GraphHandler.py`      — Neo4j entity graph
* `src/handlers/VectorStoreHandler.py`— ChromaDB vector index
* `src/handlers/LLMHandler.py`        — generation / extraction / embedding
* `src/handlers/DiscordHandler.py`    — per-turn orchestration (`on_message`)
* `src/handlers/CommandHandler.py`    — `!newgame` reset path

External capabilities (the Gemini models, the embedding model, the
nearest-neighbour search inside ChromaDB, Firestore write success) are
modelled as parameters collected in an `Env` record; the durable stores
are modelled as explicit state in a `WorldState` record.
-/

namespace DMBot

/-- Configuration for history summarization (`DatabaseHandler.py`, line 5). -/
def HISTORY_LIMIT : Nat := 100

/-- Configuration for history summarization (`DatabaseHandler.py`, line 6). -/
def TURNS_TO_KEEP : Nat := 6

/-- One history entry `{'role': role, 'parts': [text]}` as stored in
Firestore. `parts` is kept as a list because the Python code stores a
singleton list and reads `parts[0]`. -/
structure Turn where
  role : String
  parts : List String
deriving DecidableEq, Repr, Inhabited

/-- `DatabaseHandler._get_initial_history` (lines 44-47): the seeded
two-turn transcript. -/
def initialHistory (systemPrompt : String) : List Turn :=
  [⟨"user", [systemPrompt]⟩,
   ⟨"model", ["Understood. The world is ready. I will await the adventurers."]⟩]

/-! ## Property maps

Neo4j nodes are property maps; `SET n += $props` overwrites the listed
keys and keeps the rest.  Property maps are modelled as association
lists (`name` and `userId` live inside the map, exactly as in Neo4j,
so a property named `name` really would overwrite the node's name). -/

/-- Lookup of a key in a property map (first binding wins). -/
def getProp (ps : List (String × String)) (k : String) : Option String :=
  (ps.find? (fun p => p.1 = k)).map (·.2)

/-- Overwrite key `k` with `v`, or append the binding if `k` is absent. -/
def setProp (ps : List (String × String)) (k v : String) : List (String × String) :=
  if ps.any (fun p => p.1 = k) then
    ps.map (fun p => if p.1 = k then (k, v) else p)
  else
    ps ++ [(k, v)]

/-- Cypher `SET n += $props`: apply every binding of `new` over `old`. -/
def mergeProps (old new : List (String × String)) : List (String × String) :=
  new.foldl (fun acc kv => setProp acc kv.1 kv.2) old

/-! ## Entity drafts (`LLMHandler.extract_world_state_from_history` output)

The extraction prompt requires each entity object to carry a `name`, a
`type` and a string-valued `properties` dictionary; `entity.get("name")`
and `entity.get("type", "Thing")` may still be absent, hence the
`Option` fields.  All modelled property values are strings, so the
`isinstance(value, str)` guard in `GraphHandler` is always satisfied. -/

structure Entity where
  name : Option String
  type : Option String
  properties : List (String × String)
deriving DecidableEq, Repr

/-- `entity.get("type", "Thing")` (`GraphHandler.py`, line 79). -/
def entityTypeOf (e : Entity) : String := e.type.getD "Thing"

/-! ## The entity graph (`GraphHandler.py`) -/

/-- A Neo4j node: a stable internal id, the (single) label the code
creates it with (`none` for relationship targets, which are created
without a label), and its property map. -/
structure GNode where
  id : Nat
  label : Option String
  props : List (String × String)
deriving DecidableEq, Repr

/-- A relationship `(source)-[:LABEL]->(target)`, identified by the
endpoint node ids and the relationship type. -/
structure GEdge where
  src : Nat
  label : String
  tgt : Nat
deriving DecidableEq, Repr

structure Graph where
  nextId : Nat
  nodes : List GNode
  edges : List GEdge
deriving DecidableEq, Repr

/-- `MATCH (n:TY {name: $name, userId: $userId})`: first node carrying
label `ty` whose `name`/`userId` properties match.  (Multiple matches
would bind row by row in Cypher; the claims under verification never
exercise a multi-match, so the first match is used.) -/
def findLabeled (g : Graph) (ty nm u : String) : Option GNode :=
  g.nodes.find? (fun n =>
    n.label = some ty ∧ getProp n.props "name" = some nm ∧ getProp n.props "userId" = some u)

/-- `MERGE (target {name: $target_name, userId: $userId})` match part:
first node (any label) whose `name`/`userId` properties match. -/
def findByNameUser (g : Graph) (nm u : String) : Option GNode :=
  g.nodes.find? (fun n =>
    getProp n.props "name" = some nm ∧ getProp n.props "userId" = some u)

/-- Step 1 of `GraphHandler.add_or_update_entity` (lines 90-99):
`MERGE (n:TY {name, userId}) ON CREATE SET n += $props ON MATCH SET n += $props`. -/
def mergeLabeledNode (g : Graph) (u ty nm : String)
    (props : List (String × String)) : Graph :=
  match findLabeled g ty nm u with
  | some nd =>
      { g with nodes := g.nodes.map (fun n =>
          if n.id = nd.id then { n with props := mergeProps n.props props } else n) }
  | none =>
      { g with
        nodes := g.nodes ++
          [⟨g.nextId, some ty, mergeProps [("name", nm), ("userId", u)] props⟩],
        nextId := g.nextId + 1 }

/-- Step 2 of `GraphHandler.add_or_update_entity` for one property
(lines 110-122): match the labeled source, merge (find or create) an
unlabeled target named by the property value, and merge the edge
labeled by the upper-cased property key.  When the source `MATCH`
produces no row the whole statement does nothing. -/
def linkProp (g : Graph) (u ty nm k v : String) : Graph :=
  match findLabeled g ty nm u with
  | none => g
  | some src =>
      let gt : Graph × Nat :=
        match findByNameUser g v u with
        | some t => (g, t.id)
        | none =>
            ({ g with
               nodes := g.nodes ++ [⟨g.nextId, none, [("name", v), ("userId", u)]⟩],
               nextId := g.nextId + 1 }, g.nextId)
      let g1 := gt.1
      let tgtId := gt.2
      let e : GEdge := ⟨src.id, k.toUpper, tgtId⟩
      if e ∈ g1.edges then g1 else { g1 with edges := g1.edges ++ [e] }

/-- `GraphHandler.add_or_update_entity` (lines 69-124).  The second
component is the Python function's return value: the `if not
entity_name` guard returns `None`, and the fall-through end of the
function also returns `None` — there is no `return` of a node id. -/
def addOrUpdateEntity (u : String) (e : Entity) (g : Graph) :
    Graph × Option String :=
  match e.name with
  | none => (g, none)
  | some nm =>
      if nm = "" then (g, none)
      else
        let ty := entityTypeOf e
        let g1 := mergeLabeledNode g u ty nm e.properties
        let g2 := e.properties.foldl
          (fun acc kv => linkProp acc u ty nm kv.1 kv.2) g1
        (g2, none)

/-- Modelled from the spec: `GraphHandler.delete_user_data` is invoked
by `CommandHandler.handle_newgame` (line 98) but its definition is not
present under `src/`; §4.3 of the spec describes it as
`deleteUserScope(userId)`: "removes all nodes/edges for a user". -/
def deleteUserData (g : Graph) (u : String) : Graph :=
  let keep := g.nodes.filter (fun n => ¬ getProp n.props "userId" = some u)
  { g with
    nodes := keep,
    edges := g.edges.filter (fun e =>
      keep.any (fun n => n.id = e.src) ∧ keep.any (fun n => n.id = e.tgt)) }

/-! ## The vector index (`VectorStoreHandler.py`) -/

/-- One ChromaDB entry: `collection.upsert(embeddings=…, documents=…, ids=…)`. -/
structure VEntry where
  id : String
  embedding : List Int
  document : String
deriving DecidableEq, Repr

/-- The persistent ChromaDB client state: collection name → entries. -/
abbrev VectorStore := List (String × List VEntry)

/-- `client.get_or_create_collection(name=…)`: creating an empty
collection when the name is absent. -/
def getOrCreateCollection (vs : VectorStore) (cname : String) : VectorStore :=
  if vs.any (fun c => c.1 = cname) then vs else vs ++ [(cname, [])]

/-- Entries of a collection (empty when the collection is absent). -/
def entriesOf (vs : VectorStore) (cname : String) : List VEntry :=
  ((vs.find? (fun c => c.1 = cname)).map (·.2)).getD []

/-- ChromaDB `upsert` with a single id: replace the entry with that id,
or append it. -/
def upsertEntry (es : List VEntry) (id : String) (emb : List Int)
    (doc : String) : List VEntry :=
  if es.any (fun e => e.id = id) then
    es.map (fun e => if e.id = id then ⟨id, emb, doc⟩ else e)
  else
    es ++ [⟨id, emb, doc⟩]

/-- Replace the entry list of a collection. -/
def setCollection (vs : VectorStore) (cname : String) (es : List VEntry) :
    VectorStore :=
  vs.map (fun c => if c.1 = cname then (cname, es) else c)

/-- What a `VectorStoreHandler` call lets escape to its caller.  Every
code path of the handler catches its exceptions and returns normally,
so the operations below always produce `.ok`; the type exists so that
the spec's claim that a call "fails with `EmbeddingFailed`" is statable. -/
inductive VSOutcome
  | ok
  | raised (msg : String)
deriving DecidableEq, Repr

/-- `VectorStoreHandler.add_or_update_entry` (lines 28-59).  `embedFn`
models the result of `LLMHandler.generate_embedding` (lines 49-59),
which returns `[]` when the embedding call raised.  A falsy embedding
makes the handler log a warning and return; otherwise the entry is
upserted under the given id.  All exceptions are caught (lines 56-59),
so the outcome is `.ok` on every path. -/
def addOrUpdateEntry (embedFn : String → List Int)
    (u entryText entryId : String) (vs : VectorStore) :
    VectorStore × VSOutcome :=
  let cname := "user_" ++ u
  let vs1 := getOrCreateCollection vs cname
  let emb := embedFn entryText
  if emb = [] then
    (vs1, .ok)
  else
    (setCollection vs1 cname (upsertEntry (entriesOf vs1 cname) entryId emb entryText), .ok)

/-- `VectorStoreHandler.query` (lines 61-95).  `nn` models the
nearest-neighbour search inside `collection.query` (an external
capability of ChromaDB): given the stored entries, a query embedding
and `n_results`, it returns the ids of up to `n_results` entries. -/
def vsQuery (embedFn : String → List Int)
    (nn : List VEntry → List Int → Nat → List String)
    (u queryText : String) (nResults : Nat) (vs : VectorStore) :
    VectorStore × List String :=
  let cname := "user_" ++ u
  let vs1 := getOrCreateCollection vs cname
  let entries := entriesOf vs1 cname
  if entries.length = 0 then (vs1, [])
  else
    let qe := embedFn queryText
    if qe = [] then (vs1, [])
    else (vs1, nn entries qe nResults)

/-- `VectorStoreHandler.delete_user_collection` (lines 97-108): delete
the user's collection; a missing collection raises `ValueError`, which
is caught, so that case is a no-op. -/
def deleteUserCollection (vs : VectorStore) (u : String) : VectorStore :=
  vs.filter (fun c => ¬ c.1 = "user_" ++ u)

/-! ## The language-model handler (`LLMHandler.py`) -/

/-- Outcome of the analyst-model call inside
`extract_world_state_from_history`: a parsed `"entities"` list, a
parsed value that is not a list, a JSON/attribute parse failure, or any
other exception. -/
inductive ExtractOutcome
  | entities (es : List Entity)
  | notAList
  | parseFailure
  | exn
deriving DecidableEq, Repr

/-- `LLMHandler.extract_world_state_from_history` (lines 130-146): the
entity list on success, `[]` on every failure path. -/
def extractWorldState : ExtractOutcome → List Entity
  | .entities es => es
  | .notAList => []
  | .parseFailure => []
  | .exn => []

/-- `LLMHandler.summarize_history` (lines 148-173): the stripped model
text on success, the fixed placeholder on exception (`none`). -/
def summarizeHistory (resp : Option String) : String :=
  match resp with
  | some t => t.trim
  | none => "[Summary could not be generated due to an error.]"

/-- `LLMHandler.generate_response` (lines 32-47).  `genFn` models
`model.generate_content_async` (`none` = exception).  Returns the
response text together with the message list actually sent to the
model, so theorems can inspect the prompt that was built. -/
def generateResponse (genFn : List Turn → Option String)
    (history : List Turn) (context : Option String) : String × List Turn :=
  let lastUserMessage := ((history.getLast?).getD default).parts.headI
  let prompt :=
    match context with
    | some c =>
        "Based on this relevant context:\n---\n" ++ c ++
          "\n---\n The player says: " ++ lastUserMessage
    | none => lastUserMessage
  let messages := history.dropLast ++ [⟨"user", [prompt]⟩]
  let response :=
    match genFn messages with
    | some t => t
    | none =>
        "The world seems to shimmer and fade for a moment. I... I lost my train of thought. Can you repeat that?"
  (response, messages)

/-! ## Environment and world state -/

/-- External capabilities and configuration:

* `systemPrompt` — the persona prompt held by `DatabaseHandler`;
* `handlersConfigured` — whether `set_handlers` was called
  (`DatabaseHandler` line 101 checks `all([...])`);
* `extractOutcome` / `summarizeOutcome` / `genOutcome` — results of the
  Gemini calls on a given span, `none` meaning an exception;
* `embedFn` — result of `generate_embedding` (`[]` = failure);
* `nn` — ChromaDB's nearest-neighbour search;
* `overwriteOk` — whether the Firestore `set` in `overwrite_history`
  succeeds (its `except` returns `False` on failure). -/
structure Env where
  systemPrompt : String
  handlersConfigured : Bool
  extractOutcome : List Turn → ExtractOutcome
  summarizeOutcome : List Turn → Option String
  genOutcome : List Turn → Option String
  embedFn : String → List Int
  nn : List VEntry → List Int → Nat → List String
  overwriteOk : Bool

/-- The Firestore collection `dnd_sessions`: document id → history. -/
abbrev Sessions := List (String × List Turn)

/-- All durable state, plus instrumentation logs: `vectorWrites`
records each invocation of `add_or_update_entry` from the consolidation
loop, `vectorQueryLog` each invocation of `VectorStoreHandler.query`,
`overwriteAttempts` counts the calls to `overwrite_history`. -/
structure WorldState where
  sessions : Sessions
  graph : Graph
  vstore : VectorStore
  vectorWrites : List (String × String × String)
  vectorQueryLog : List (String × String)
  overwriteAttempts : Nat
deriving DecidableEq, Repr

/-- Lookup of a session document's history. -/
def lookupSession : Sessions → String → Option (List Turn)
  | [], _ => none
  | p :: rest, u => if p.1 = u then some p.2 else lookupSession rest u

/-- Firestore document `set`: replace the document, creating it if
absent. -/
def setSession : Sessions → String → List Turn → Sessions
  | [], u, h => [(u, h)]
  | p :: rest, u, h => if p.1 = u then (u, h) :: rest else p :: setSession rest u h

/-- `DatabaseHandler._ensure_user_document_exists` (lines 63-69). -/
def ensureUserDoc (sp u : String) (s : Sessions) : Sessions :=
  match lookupSession s u with
  | some _ => s
  | none => setSession s u (initialHistory sp)

/-- `DatabaseHandler.get_history` (lines 71-74): ensure the document,
then read its `history` field (defaulting to the initial history). -/
def getHistoryS (sp u : String) (s : Sessions) : Sessions × List Turn :=
  let s1 := ensureUserDoc sp u s
  (s1, (lookupSession s1 u).getD (initialHistory sp))

/-- Firestore `ArrayUnion([turn])`: append the element only when it is
not already present in the array. -/
def arrayUnionTurn (h : List Turn) (t : Turn) : List Turn :=
  if t ∈ h then h else h ++ [t]

/-- `DatabaseHandler._create_descriptive_sentence` (lines 49-61). -/
def createDescriptiveSentence (e : Entity) : String :=
  let name := e.name.getD "Unnamed Entity"
  let entType := e.type.getD "Thing"
  let props := e.properties.map (fun kv => "its " ++ kv.1 ++ " is " ++ kv.2)
  if props = [] then entType ++ ": " ++ name ++ "."
  else entType ++ ": " ++ name ++ " is an entity whose " ++
        String.intercalate ", and " props ++ "."

/-- `DatabaseHandler.overwrite_history` (lines 90-98): one Firestore
`set` attempt; returns whether it succeeded. -/
def overwriteHistory (env : Env) (u : String) (newHistory : List Turn)
    (st : WorldState) : WorldState × Bool :=
  let st1 := { st with overwriteAttempts := st.overwriteAttempts + 1 }
  if env.overwriteOk then
    ({ st1 with sessions := setSession st1.sessions u newHistory }, true)
  else (st1, false)

/-- The per-entity body of the consolidation loop
(`DatabaseHandler._truncate_and_update_world_state`, lines 117-124):
upsert into the graph, and only under `if node_id:` upsert the
descriptive sentence into the vector store. -/
def processEntity (env : Env) (u : String) (st : WorldState) (e : Entity) :
    WorldState :=
  let gr := addOrUpdateEntity u e st.graph
  let st1 := { st with graph := gr.1 }
  match gr.2 with
  | none => st1
  | some nid =>
      if nid = "" then st1  -- `if node_id:` — the empty string is falsy
      else
        let sentence := createDescriptiveSentence e
        let vr := addOrUpdateEntry env.embedFn u sentence nid st1.vstore
        { st1 with
          vstore := vr.1,
          vectorWrites := st1.vectorWrites ++ [(u, sentence, nid)] }

/-- `DatabaseHandler._truncate_and_update_world_state` (lines 100-137). -/
def truncateAndUpdateWorldState (env : Env) (u : String)
    (history : List Turn) (st : WorldState) : WorldState :=
  if ¬ env.handlersConfigured then st
  else
    let systemPrompt := history.headI
    let recentConversation := history.drop (history.length - TURNS_TO_KEEP)
    let conversationToAnalyze := (history.drop 1).take (history.length - 1 - TURNS_TO_KEEP)
    let entities := extractWorldState (env.extractOutcome conversationToAnalyze)
    let st1 := if entities ≠ [] then entities.foldl (processEntity env u) st else st
    let summary := summarizeHistory (env.summarizeOutcome conversationToAnalyze)
    let newHistory :=
      [systemPrompt,
       ⟨"user", ["[The story so far: " ++ summary ++ "]"]⟩,
       ⟨"model", ["Understood. Let's continue."]⟩] ++ recentConversation
    (overwriteHistory env u newHistory st1).1

/-- `DatabaseHandler.add_message` (lines 76-83): read the history
(ensuring the document), consolidate first when the limit is reached,
ensure the document again and append via `ArrayUnion`. -/
def addMessage (env : Env) (u roleStr msg : String) (st : WorldState) :
    WorldState :=
  let sh := getHistoryS env.systemPrompt u st.sessions
  let st1 := { st with sessions := sh.1 }
  let st2 :=
    if HISTORY_LIMIT ≤ sh.2.length then
      truncateAndUpdateWorldState env u sh.2 st1
    else st1
  let s3 := ensureUserDoc env.systemPrompt u st2.sessions
  let h := (lookupSession s3 u).getD []
  { st2 with sessions := setSession s3 u (arrayUnionTurn h ⟨roleStr, [msg]⟩) }

/-- `DatabaseHandler.reset_history` (lines 85-88). -/
def resetHistory (env : Env) (u : String) (st : WorldState) : WorldState :=
  { st with sessions := setSession st.sessions u (initialHistory env.systemPrompt) }

/-- The confirmed `!newgame` reset path
(`CommandHandler.handle_newgame`, lines 90-105): reset the Firestore
history, delete the user's graph data, delete the user's vector
collection. -/
def resetUser (env : Env) (u : String) (st : WorldState) : WorldState :=
  let st1 := resetHistory env u st
  let st2 := { st1 with graph := deleteUserData st1.graph u }
  { st2 with vstore := deleteUserCollection st2.vstore u }

/-- `VectorStoreHandler.query` lifted to the world state, recording the
invocation in `vectorQueryLog`.  No code path of the repository invokes
it (mirroring the source, where `query` has no caller). -/
def vsQueryLogged (env : Env) (u queryText : String) (nResults : Nat)
    (st : WorldState) : WorldState × List String :=
  let r := vsQuery env.embedFn env.nn u queryText nResults st.vstore
  ({ st with
     vstore := r.1,
     vectorQueryLog := st.vectorQueryLog ++ [(u, queryText)] }, r.2)

/-- The main game loop of `DiscordHandler.on_message` (lines 55-68):
append the user turn, re-read the history, generate the response with
no retrieval context, append the model turn, and send either the
response or the fixed silence line. -/
def gameTurn (env : Env) (authorName userId userMessage : String)
    (st : WorldState) : WorldState × List String :=
  let fullUserMessage := authorName ++ " says: " ++ userMessage
  let st1 := addMessage env userId "user" fullUserMessage st
  let sh := getHistoryS env.systemPrompt userId st1.sessions
  let st2 := { st1 with sessions := sh.1 }
  let dmResponse := (generateResponse env.genOutcome sh.2 none).1
  let st3 := addMessage env userId "model" dmResponse st2
  let sent :=
    if dmResponse ≠ "" then [dmResponse]
    else ["A strange silence fills the air... (The DM seems to have lost their train of thought.)"]
  (st3, sent)

/-! ## Concrete test fixtures -/

/-- An entity draft in the shape produced by the extraction prompt. -/
def sampleEntity : Entity :=
  ⟨some "Blorf", some "Character", [("workplace", "The Gilded Mug")]⟩

def emptyGraph : Graph := ⟨0, [], []⟩

/-- An environment where every external capability succeeds and the
enrichment handlers are configured. -/
def specEnv : Env :=
  { systemPrompt := "SP"
    handlersConfigured := true
    extractOutcome := fun _ => .entities [sampleEntity]
    summarizeOutcome := fun _ => some "S"
    genOutcome := fun _ => some "resp"
    embedFn := fun _ => [1]
    nn := fun es _ n => (es.map (·.id)).take n
    overwriteOk := true }

/-- Same environment, but `set_handlers` was never called (as in
`DMBot.py`, which constructs no graph or vector handler). -/
def envNoHandlers : Env := { specEnv with handlersConfigured := false }

/-- A 99-turn transcript: the seeded pair plus 97 distinct user turns. -/
def history99 : List Turn :=
  initialHistory "SP" ++ (List.range 97).map (fun i => ⟨"user", [toString i]⟩)

/-- A 100-turn transcript: the seeded pair plus 98 distinct user turns. -/
def history100 : List Turn :=
  initialHistory "SP" ++ (List.range 98).map (fun i => ⟨"user", [toString i]⟩)

def state99 : WorldState := ⟨[("7", history99)], emptyGraph, [], [], [], 0⟩

def state100 : WorldState := ⟨[("7", history100)], emptyGraph, [], [], [], 0⟩

/-- A world whose vector index already holds an entry for user 42. -/
def stateWithVector : WorldState :=
  ⟨[], emptyGraph, [("user_42", [⟨"id1", [1], "doc"⟩])], [], [], 0⟩

/-- An environment where both Gemini enrichment calls fail (extraction
raises, summarization raises) but everything else works. -/
def envFailingLLM : Env :=
  { specEnv with
    extractOutcome := fun _ => .exn
    summarizeOutcome := fun _ => none }

/-! ## Helper lemmas -/

theorem addOrUpdateEntity_snd (u : String) (e : Entity) (g : Graph) :
    (addOrUpdateEntity u e g).2 = none := by
  unfold addOrUpdateEntity
  cases e.name with
  | none => rfl
  | some nm =>
      by_cases h : nm = "" <;> simp [h]

theorem processEntity_vstore (env : Env) (u : String) (st : WorldState)
    (e : Entity) :
    (processEntity env u st e).vstore = st.vstore ∧
      (processEntity env u st e).vectorWrites = st.vectorWrites ∧
      (processEntity env u st e).vectorQueryLog = st.vectorQueryLog ∧
      (processEntity env u st e).sessions = st.sessions ∧
      (processEntity env u st e).overwriteAttempts = st.overwriteAttempts := by
  simp [processEntity, addOrUpdateEntity_snd]

theorem foldl_processEntity_vstore (env : Env) (u : String) :
    ∀ (es : List Entity) (st : WorldState),
      ((es.foldl (processEntity env u) st).vstore = st.vstore ∧
        (es.foldl (processEntity env u) st).vectorWrites = st.vectorWrites) ∧
      ((es.foldl (processEntity env u) st).vectorQueryLog = st.vectorQueryLog ∧
        (es.foldl (processEntity env u) st).sessions = st.sessions ∧
        (es.foldl (processEntity env u) st).overwriteAttempts = st.overwriteAttempts) := by
  intro es
  induction es with
  | nil => intro st; exact ⟨⟨rfl, rfl⟩, rfl, rfl, rfl⟩
  | cons e rest ih =>
      intro st
      have hp := processEntity_vstore env u st e
      have hr := ih (processEntity env u st e)
      simp only [List.foldl_cons]
      refine ⟨⟨?_, ?_⟩, ?_, ?_, ?_⟩
      · rw [hr.1.1, hp.1]
      · rw [hr.1.2, hp.2.1]
      · rw [hr.2.1, hp.2.2.1]
      · rw [hr.2.2.1, hp.2.2.2.1]
      · rw [hr.2.2.2, hp.2.2.2.2]

theorem truncate_vstore (env : Env) (u : String) (history : List Turn)
    (st : WorldState) :
    (truncateAndUpdateWorldState env u history st).vstore = st.vstore ∧
      (truncateAndUpdateWorldState env u history st).vectorWrites = st.vectorWrites ∧
      (truncateAndUpdateWorldState env u history st).vectorQueryLog = st.vectorQueryLog := by
  unfold truncateAndUpdateWorldState
  split
  · exact ⟨rfl, rfl, rfl⟩
  · simp only [overwriteHistory]
    split <;> split <;>
      first
        | exact ⟨((foldl_processEntity_vstore env u _ st).1.1),
                 ((foldl_processEntity_vstore env u _ st).1.2),
                 ((foldl_processEntity_vstore env u _ st).2.1)⟩
        | exact ⟨rfl, rfl, rfl⟩

theorem addMessage_queryLog (env : Env) (u roleStr msg : String)
    (st : WorldState) :
    (addMessage env u roleStr msg st).vectorQueryLog = st.vectorQueryLog ∧
      (addMessage env u roleStr msg st).vstore = st.vstore := by
  simp only [addMessage]
  split
  · exact ⟨(truncate_vstore env u _ _).2.2, (truncate_vstore env u _ _).1⟩
  · exact ⟨rfl, rfl⟩

theorem lookup_setSession_self (s : Sessions) (u : String) (h : List Turn) :
    lookupSession (setSession s u h) u = some h := by
  induction s with
  | nil => simp [setSession, lookupSession]
  | cons p rest ih =>
      by_cases hp : p.1 = u
      · simp [setSession, lookupSession, hp]
      · simp [setSession, lookupSession, hp, ih]

theorem ensure_of_lookup_some {s : Sessions} {u : String} {h : List Turn}
    (sp : String) (hl : lookupSession s u = some h) :
    ensureUserDoc sp u s = s := by
  simp [ensureUserDoc, hl]

theorem ensure_lookup (sp u : String) (s : Sessions) :
    lookupSession (ensureUserDoc sp u s) u =
      some ((lookupSession s u).getD (initialHistory sp)) := by
  unfold ensureUserDoc
  cases hl : lookupSession s u with
  | some h => simp [hl]
  | none => simp [lookup_setSession_self]

theorem arrayUnion_length (h : List Turn) (t : Turn) :
    (arrayUnionTurn h t).length ≤ h.length + 1 := by
  unfold arrayUnionTurn
  split
  · omega
  · simp

theorem truncate_sessions (env : Env) (u : String) (history : List Turn)
    (st : WorldState) (hc : env.handlersConfigured = true)
    (ho : env.overwriteOk = true) :
    (truncateAndUpdateWorldState env u history st).sessions =
      setSession st.sessions u
        ([history.headI,
          ⟨"user", ["[The story so far: " ++
            summarizeHistory (env.summarizeOutcome
              ((history.drop 1).take (history.length - 1 - TURNS_TO_KEEP))) ++ "]"]⟩,
          ⟨"model", ["Understood. Let's continue."]⟩] ++
          history.drop (history.length - TURNS_TO_KEEP)) := by
  simp only [truncateAndUpdateWorldState, hc, not_true_eq_false, if_false,
    overwriteHistory, ho, if_true]
  split
  · exact congrArg (fun s => setSession s u _)
      ((foldl_processEntity_vstore env u _ st).2.2.1)
  · rfl

/-! ## C1 — consolidation never reaches the vector index -/

/-- C1: `GraphHandler.add_or_update_entity` has no `return` of a node
id, so `node_id` in `DatabaseHandler._truncate_and_update_world_state`
is always `None` and the guarded call to
`VectorStoreHandler.add_or_update_entry` is dead code: consolidation
leaves the vector store, and the log of vector-upsert invocations,
exactly as they were — for every environment, user, history and state.
This contradicts the claim that every successfully upserted entity also
gets a vector-index entry keyed by its graph id. -/
theorem C1_consolidation_never_writes_vector_index
    (env : Env) (u : String) (history : List Turn) (st : WorldState) :
    (truncateAndUpdateWorldState env u history st).vstore = st.vstore ∧
      (truncateAndUpdateWorldState env u history st).vectorWrites = st.vectorWrites := by
  exact ⟨(truncate_vstore env u history st).1, (truncate_vstore env u history st).2.1⟩

/-! ## C2 — the turn pipeline performs no retrieval -/

/-- C2 counterexample: a concrete inbound turn for user 42 whose vector
index holds an entry; after the whole `on_message` game loop the query
log is still empty — the VectorIndex was never queried with the user's
message (and hence no entity context was merged into the prompt),
contradicting the claim. -/
theorem C2_counterexample :
    (gameTurn specEnv "Alice" "42" "hello" stateWithVector).1.vectorQueryLog = [] ∧
      (gameTurn specEnv "Alice" "42" "hello" stateWithVector).2 = ["resp"] := by
  constructor <;> rfl

/-- C2 (amended): on every inbound player turn the orchestrator never
queries the VectorIndex (the query log is untouched by the whole game
loop), and `generate_response` is invoked without a context, so the
message list sent to the GenerationProvider ends in the unmodified last
user message of the history. -/
theorem C2_no_retrieval_on_turns
    (env : Env) (authorName userId userMessage : String) (st : WorldState) :
    (gameTurn env authorName userId userMessage st).1.vectorQueryLog =
        st.vectorQueryLog ∧
      ∀ (genFn : List Turn → Option String) (history : List Turn),
        (generateResponse genFn history none).2 =
          history.dropLast ++ [⟨"user", [((history.getLast?).getD default).parts.headI]⟩] := by
  constructor
  · simp only [gameTurn]
    refine Eq.trans ?_
      ((addMessage_queryLog env userId "user" (authorName ++ " says: " ++ userMessage) st).1)
    exact (addMessage_queryLog env userId "model" _ _).1
  · intro genFn history
    rfl

/-! ## C3 — the consolidation threshold -/

/-- C3 counterexample: with `HISTORY_LIMIT = 100`, a transcript of
exactly 99 turns receives one fresh append; the resulting transcript
has 100 turns, not 10, and `overwrite_history` was never invoked — the
threshold check `len(current_history) >= HISTORY_LIMIT` is false at 99,
so consolidation does not fire. -/
theorem C3_counterexample :
    ((lookupSession (addMessage specEnv "7" "user" "zzz" state99).sessions "7").getD []).length = 100 ∧
      (addMessage specEnv "7" "user" "zzz" state99).overwriteAttempts = 0 ∧
      ¬ ((lookupSession (addMessage specEnv "7" "user" "zzz" state99).sessions "7").getD []).length = 10 := by
  refine ⟨by rfl, by rfl, by decide⟩

/-! ## C4 — the transcript bound -/

/-- C3 (amended): with `HISTORY_LIMIT = 100`, consolidation fires on
the append performed against a transcript of exactly 100 turns; when
the consolidation rewrite succeeds and the appended turn is not already
present in the rewritten transcript (Firestore `ArrayUnion` drops
duplicates), the resulting transcript has exactly 10 turns:
1 head + 2 synthetic summary turns + 6 kept tail turns + the new turn. -/
theorem C3_consolidation_fires_at_100
    (env : Env) (u roleStr msg : String) (st : WorldState) (h : List Turn)
    (hc : env.handlersConfigured = true) (ho : env.overwriteOk = true)
    (hstored : lookupSession st.sessions u = some h)
    (hlen : h.length = 100)
    (hfresh : Turn.mk roleStr [msg] ∉
      ([h.headI,
        ⟨"user", ["[The story so far: " ++
          summarizeHistory (env.summarizeOutcome
            ((h.drop 1).take (h.length - 1 - TURNS_TO_KEEP))) ++ "]"]⟩,
        ⟨"model", ["Understood. Let's continue."]⟩] ++
        h.drop (h.length - TURNS_TO_KEEP))) :
    ((lookupSession (addMessage env u roleStr msg st).sessions u).getD []).length = 10 := by
  have hens : ensureUserDoc env.systemPrompt u st.sessions = st.sessions :=
    ensure_of_lookup_some env.systemPrompt hstored
  simp only [addMessage, getHistoryS, hens, hstored, Option.getD_some]
  have hge : HISTORY_LIMIT ≤ h.length := by rw [hlen]; decide
  rw [if_pos hge]
  have hts := truncate_sessions env u h
    { st with sessions := st.sessions } hc ho
  simp only at hts
  rw [hts, ensure_of_lookup_some env.systemPrompt (lookup_setSession_self _ _ _),
    lookup_setSession_self, lookup_setSession_self]
  simp only [Option.getD_some, arrayUnionTurn, if_neg hfresh]
  simp only [List.length_append, List.length_drop, List.length_cons,
    List.length_nil, hlen, TURNS_TO_KEEP]

/-- C3 witness: a concrete 100-turn transcript plus a fresh append
yields a 10-turn transcript. -/
theorem C3_witness :
    specEnv.handlersConfigured = true ∧ specEnv.overwriteOk = true ∧
      lookupSession state100.sessions "7" = some history100 ∧
      history100.length = 100 ∧
      ((lookupSession (addMessage specEnv "7" "user" "zzz" state100).sessions "7").getD []).length = 10 :=
  ⟨rfl, rfl, by decide, by decide,
    C3_consolidation_fires_at_100 specEnv "7" "user" "zzz" state100 history100
      rfl rfl (by decide) (by decide) (by decide)⟩

/-- C4 counterexample: with the enrichment handlers not configured (as
in `DMBot.py`, which never calls `set_handlers`), an `add_message` on a
100-turn transcript skips the truncation and appends anyway: the
resulting length is 101, violating `len < HISTORY_LIMIT + 1`. -/
theorem C4_counterexample :
    ((lookupSession (addMessage envNoHandlers "7" "user" "zzz" state100).sessions "7").getD []).length = 101 ∧
      ¬ (((lookupSession (addMessage envNoHandlers "7" "user" "zzz" state100).sessions "7").getD []).length
          < HISTORY_LIMIT + 1) := by
  refine ⟨by rfl, by decide⟩

/-- C4 (amended): provided the enrichment handlers are configured and
the consolidation rewrite succeeds, then after every `add_message` the
stored transcript has fewer than `HISTORY_LIMIT + 1` turns, whatever
the prior state; without those provisos the bound can be exceeded (see
the counterexample). -/
theorem C4_bound_under_configured_handlers
    (env : Env) (u roleStr msg : String) (st : WorldState)
    (hc : env.handlersConfigured = true) (ho : env.overwriteOk = true) :
    ((lookupSession (addMessage env u roleStr msg st).sessions u).getD []).length
      < HISTORY_LIMIT + 1 := by
  simp only [addMessage, getHistoryS]
  rw [ensure_lookup]
  set h : List Turn := (lookupSession st.sessions u).getD (initialHistory env.systemPrompt) with hh
  simp only [Option.getD_some]
  split
  · -- consolidation fires: the rewritten transcript has at most 9 turns
    rename_i hge
    rw [truncate_sessions env u h _ hc ho,
      ensure_of_lookup_some env.systemPrompt (lookup_setSession_self _ _ _),
      lookup_setSession_self, lookup_setSession_self]
    simp only [Option.getD_some]
    have hb := arrayUnion_length
      ([h.headI,
        ⟨"user", ["[The story so far: " ++
          summarizeHistory (env.summarizeOutcome
            ((h.drop 1).take (h.length - 1 - TURNS_TO_KEEP))) ++ "]"]⟩,
        ⟨"model", ["Understood. Let's continue."]⟩] ++
        h.drop (h.length - TURNS_TO_KEEP)) ⟨roleStr, [msg]⟩
    simp only [List.length_append, List.length_drop, List.length_cons,
      List.length_nil, TURNS_TO_KEEP] at hb
    simp only [HISTORY_LIMIT, TURNS_TO_KEEP]
    omega
  · -- below the limit: one append keeps the length at most HISTORY_LIMIT
    rename_i hlt
    rw [ensure_of_lookup_some env.systemPrompt (ensure_lookup env.systemPrompt u st.sessions),
      ensure_lookup]
    simp only [Option.getD_some]
    have hb := arrayUnion_length h ⟨roleStr, [msg]⟩
    rw [lookup_setSession_self]
    simp only [Option.getD_some]
    rw [← hh]
    simp only [HISTORY_LIMIT] at hlt ⊢
    omega

/-- C4 witness: a concrete run under configured handlers and a
succeeding rewrite stays below the bound. -/
theorem C4_witness :
    specEnv.handlersConfigured = true ∧ specEnv.overwriteOk = true ∧
      ((lookupSession (addMessage specEnv "7" "user" "zzz" state100).sessions "7").getD []).length
        < HISTORY_LIMIT + 1 :=
  ⟨rfl, rfl,
    C4_bound_under_configured_handlers specEnv "7" "user" "zzz" state100 rfl rfl⟩

/-! ## C9 — embedding failure during a vector upsert -/

theorem entriesOf_getOrCreate (vs : VectorStore) (cname : String) :
    entriesOf (getOrCreateCollection vs cname) cname = entriesOf vs cname := by
  unfold getOrCreateCollection
  split
  · rfl
  · rename_i hany
    have hfind : vs.find? (fun c => c.1 = cname) = none := by
      apply List.find?_eq_none.mpr
      intro x hx hpx
      exact hany (List.any_eq_true.mpr ⟨x, hx, hpx⟩)
    unfold entriesOf
    rw [List.find?_append, hfind]
    simp

/-- C9 counterexample: a failing EmbeddingProvider during
`add_or_update_entry` does not make the call fail — the handler logs a
warning and returns normally (`.ok`, not an `EmbeddingFailed` error),
although indeed no entry is written. -/
theorem C9_counterexample :
    (addOrUpdateEntry (fun _ => []) "9" "text" "id9" []).2 = VSOutcome.ok ∧
      ¬ ((addOrUpdateEntry (fun _ => []) "9" "text" "id9" []).2 =
          VSOutcome.raised "EmbeddingFailed") ∧
      entriesOf (addOrUpdateEntry (fun _ => []) "9" "text" "id9" []).1 "user_9" = [] := by
  exact ⟨rfl, by decide, rfl⟩

/-- C9 (amended): if the EmbeddingProvider fails during
`add_or_update_entry`, the call swallows the failure and returns
normally (no `EmbeddingFailed` escapes), the user's entry list is
unchanged (no partial write), and a subsequent `query` — for any
nearest-neighbour search that only returns stored ids — does not
return the new id. -/
theorem C9_embedding_failure_swallowed
    (embedFn : String → List Int) (nn : List VEntry → List Int → Nat → List String)
    (u entryText entryId queryText : String) (n : Nat) (vs : VectorStore)
    (hfail : embedFn entryText = [])
    (hnn : ∀ es q k, ∀ x ∈ nn es q k, x ∈ es.map VEntry.id)
    (hid : entryId ∉ (entriesOf vs ("user_" ++ u)).map VEntry.id) :
    (addOrUpdateEntry embedFn u entryText entryId vs).2 = VSOutcome.ok ∧
      entriesOf (addOrUpdateEntry embedFn u entryText entryId vs).1 ("user_" ++ u) =
        entriesOf vs ("user_" ++ u) ∧
      entryId ∉ (vsQuery embedFn nn u queryText n
        (addOrUpdateEntry embedFn u entryText entryId vs).1).2 := by
  have hupsert : addOrUpdateEntry embedFn u entryText entryId vs =
      (getOrCreateCollection vs ("user_" ++ u), VSOutcome.ok) := by
    simp [addOrUpdateEntry, hfail]
  refine ⟨by rw [hupsert], by rw [hupsert]; exact entriesOf_getOrCreate vs _, ?_⟩
  rw [hupsert]
  simp only [vsQuery]
  have hgg : getOrCreateCollection (getOrCreateCollection vs ("user_" ++ u)) ("user_" ++ u) =
      getOrCreateCollection vs ("user_" ++ u) := by
    unfold getOrCreateCollection
    split
    · rfl
    · rename_i hany
      rw [if_pos]
      simp [List.any_append]
  rw [hgg, entriesOf_getOrCreate]
  split
  · simp
  · split
    · simp
    · intro hmem
      exact hid (hnn _ _ _ _ hmem)

/-- C9 witness: the failing embedder on an empty store — the call
returns normally, nothing is written, and a query for the id comes back
empty. -/
theorem C9_witness :
    ((fun (_ : String) => ([] : List Int)) "text" = []) ∧
      ("id9" ∉ (entriesOf ([] : VectorStore) ("user_" ++ "9")).map VEntry.id) ∧
      ((addOrUpdateEntry (fun _ => []) "9" "text" "id9" []).2 = VSOutcome.ok ∧
        entriesOf (addOrUpdateEntry (fun _ => []) "9" "text" "id9" []).1 ("user_" ++ "9") =
          entriesOf ([] : VectorStore) ("user_" ++ "9") ∧
        "id9" ∉ (vsQuery (fun _ => []) (fun es _ k => (es.map (·.id)).take k) "9" "q" 5
          (addOrUpdateEntry (fun _ => []) "9" "text" "id9" []).1).2) :=
  ⟨rfl, by decide,
    C9_embedding_failure_swallowed (fun _ => []) (fun es _ k => (es.map (·.id)).take k)
      "9" "text" "id9" "q" 5 [] rfl
      (fun es q k x hx => List.mem_of_mem_take hx) (by decide)⟩

/-! ## C8 — the consolidation frame -/

/-- C8: a successful consolidation replaces the middle span with
exactly the two synthetic summary turns while keeping `Transcript[0]`
and the last `TURNS_TO_KEEP` turns unchanged and in order: the
rewritten transcript is literally
`take 1 ++ [summaryUserTurn, summaryAckTurn] ++ drop (N - K)`. -/
theorem C8_consolidation_replaces_middle
    (env : Env) (u : String) (h : List Turn) (st : WorldState)
    (hc : env.handlersConfigured = true) (ho : env.overwriteOk = true)
    (hlen : HISTORY_LIMIT ≤ h.length) :
    lookupSession (truncateAndUpdateWorldState env u h st).sessions u =
      some (h.take 1 ++
        [⟨"user", ["[The story so far: " ++
          summarizeHistory (env.summarizeOutcome
            ((h.drop 1).take (h.length - 1 - TURNS_TO_KEEP))) ++ "]"]⟩,
         ⟨"model", ["Understood. Let's continue."]⟩] ++
        h.drop (h.length - TURNS_TO_KEEP)) := by
  rw [truncate_sessions env u h st hc ho, lookup_setSession_self]
  cases h with
  | nil => simp [HISTORY_LIMIT] at hlen
  | cons a t => rfl

/-- C8 witness: the frame equation evaluated on a concrete 100-turn
transcript. -/
theorem C8_witness :
    specEnv.handlersConfigured = true ∧ specEnv.overwriteOk = true ∧
      HISTORY_LIMIT ≤ history100.length ∧
      lookupSession (truncateAndUpdateWorldState specEnv "7" history100 state100).sessions "7" =
        some (history100.take 1 ++
          [⟨"user", ["[The story so far: " ++
            summarizeHistory (specEnv.summarizeOutcome
              ((history100.drop 1).take (history100.length - 1 - TURNS_TO_KEEP))) ++ "]"]⟩,
           ⟨"model", ["Understood. Let's continue."]⟩] ++
          history100.drop (history100.length - TURNS_TO_KEEP)) :=
  ⟨rfl, rfl, by decide,
    C8_consolidation_replaces_middle specEnv "7" history100 state100 rfl rfl (by decide)⟩

/-! ## C10 — enrichment is best-effort, truncation still happens -/

/-- C10: when the extraction call fails (any of its failure modes) the
consolidation proceeds with an empty entity list (graph and vector
store are untouched), when summarization fails the fixed placeholder is
substituted, and in both cases the transcript rewrite is still
performed: `overwrite_history` is invoked (attempt counter increases),
and when the store accepts it the transcript is rewritten with the
placeholder summary. -/
theorem C10_truncation_survives_enrichment_failure
    (env : Env) (u : String) (h : List Turn) (st : WorldState)
    (hc : env.handlersConfigured = true)
    (he : env.extractOutcome ((h.drop 1).take (h.length - 1 - TURNS_TO_KEEP)) = .parseFailure ∨
          env.extractOutcome ((h.drop 1).take (h.length - 1 - TURNS_TO_KEEP)) = .notAList ∨
          env.extractOutcome ((h.drop 1).take (h.length - 1 - TURNS_TO_KEEP)) = .exn)
    (hs : env.summarizeOutcome ((h.drop 1).take (h.length - 1 - TURNS_TO_KEEP)) = none) :
    (truncateAndUpdateWorldState env u h st).overwriteAttempts = st.overwriteAttempts + 1 ∧
      (truncateAndUpdateWorldState env u h st).graph = st.graph ∧
      (truncateAndUpdateWorldState env u h st).vstore = st.vstore ∧
      (env.overwriteOk = true →
        lookupSession (truncateAndUpdateWorldState env u h st).sessions u =
          some ([h.headI,
            ⟨"user", ["[The story so far: [Summary could not be generated due to an error.]]"]⟩,
            ⟨"model", ["Understood. Let's continue."]⟩] ++
            h.drop (h.length - TURNS_TO_KEEP))) := by
  have hent : extractWorldState
      (env.extractOutcome ((h.drop 1).take (h.length - 1 - TURNS_TO_KEEP))) = [] := by
    rcases he with he | he | he <;> rw [he] <;> rfl
  have hred : truncateAndUpdateWorldState env u h st =
      (overwriteHistory env u
        ([h.headI,
          ⟨"user", ["[The story so far: [Summary could not be generated due to an error.]]"]⟩,
          ⟨"model", ["Understood. Let's continue."]⟩] ++
          h.drop (h.length - TURNS_TO_KEEP)) st).1 := by
    simp only [truncateAndUpdateWorldState, hc, not_true_eq_false, if_false, hent, hs]
    rfl
  rw [hred]
  unfold overwriteHistory
  by_cases hok : env.overwriteOk = true
  · simp [hok, lookup_setSession_self]
  · simp [hok]

/-- C10 witness: both Gemini calls fail on a concrete 100-turn
transcript, yet the rewrite is attempted and lands. -/
theorem C10_witness :
    envFailingLLM.handlersConfigured = true ∧
      envFailingLLM.summarizeOutcome
        ((history100.drop 1).take (history100.length - 1 - TURNS_TO_KEEP)) = none ∧
      ((truncateAndUpdateWorldState envFailingLLM "7" history100 state100).overwriteAttempts =
          state100.overwriteAttempts + 1 ∧
        (truncateAndUpdateWorldState envFailingLLM "7" history100 state100).graph = state100.graph ∧
        (truncateAndUpdateWorldState envFailingLLM "7" history100 state100).vstore = state100.vstore ∧
        (envFailingLLM.overwriteOk = true →
          lookupSession
            (truncateAndUpdateWorldState envFailingLLM "7" history100 state100).sessions "7" =
            some ([history100.headI,
              ⟨"user", ["[The story so far: [Summary could not be generated due to an error.]]"]⟩,
              ⟨"model", ["Understood. Let's continue."]⟩] ++
              history100.drop (history100.length - TURNS_TO_KEEP)))) :=
  ⟨rfl, rfl,
    C10_truncation_survives_enrichment_failure envFailingLLM "7" history100 state100 rfl
      (Or.inr (Or.inr rfl)) rfl⟩

/-! ## C7 — what survives at the head of the transcript -/

theorem ensure_idem (sp u : String) (s : Sessions) :
    ensureUserDoc sp u (ensureUserDoc sp u s) = ensureUserDoc sp u s :=
  ensure_of_lookup_some sp (ensure_lookup sp u s)

theorem head?_append_of_head? {l : List Turn} {x : Turn}
    (hl : l.head? = some x) (l' : List Turn) : (l ++ l').head? = some x := by
  cases l with
  | nil => simp at hl
  | cons a t => simpa using hl

theorem headI_of_head? {l : List Turn} {x : Turn}
    (hl : l.head? = some x) : l.headI = x := by
  cases l with
  | nil => simp at hl
  | cons a t =>
      simp only [List.head?_cons, Option.some.injEq] at hl
      simp [hl]

theorem arrayUnion_head? {h : List Turn} {x : Turn}
    (hx : h.head? = some x) (t : Turn) : (arrayUnionTurn h t).head? = some x := by
  unfold arrayUnionTurn
  split
  · exact hx
  · exact head?_append_of_head? hx [t]

theorem truncate_sessions_or (env : Env) (u : String) (h : List Turn)
    (st : WorldState) :
    (truncateAndUpdateWorldState env u h st).sessions = st.sessions ∨
      (truncateAndUpdateWorldState env u h st).sessions =
        setSession st.sessions u
          ([h.headI,
            ⟨"user", ["[The story so far: " ++
              summarizeHistory (env.summarizeOutcome
                ((h.drop 1).take (h.length - 1 - TURNS_TO_KEEP))) ++ "]"]⟩,
            ⟨"model", ["Understood. Let's continue."]⟩] ++
            h.drop (h.length - TURNS_TO_KEEP)) := by
  by_cases hc : env.handlersConfigured = true
  · by_cases hok : env.overwriteOk = true
    · exact Or.inr (truncate_sessions env u h st hc hok)
    · left
      have hof : env.overwriteOk = false := by
        cases hcf : env.overwriteOk
        · rfl
        · exact absurd hcf hok
      simp only [truncateAndUpdateWorldState, hc, not_true_eq_false, if_false,
        overwriteHistory, hof, Bool.false_eq_true]
      split
      · exact (foldl_processEntity_vstore env u _ st).2.2.1
      · rfl
  · left
    have hcf : env.handlersConfigured = false := by
      cases hx : env.handlersConfigured
      · rfl
      · exact absurd hx hc
    simp [truncateAndUpdateWorldState, hcf]

/-- C7 counterexample: after a consolidation-triggering append on a
concrete 100-turn transcript that began with the seeded pair, the turn
at index 1 is the synthetic `user`-role summary turn, not the fixed
`model`-role acknowledgment — the system-framing pair is not preserved
(or replaced) as a unit at indices 0-1. -/
theorem C7_counterexample :
    (((lookupSession (addMessage specEnv "7" "user" "zzz" state100).sessions "7").getD []).get? 1).map
        Turn.role = some "user" ∧
      ¬ (((lookupSession (addMessage specEnv "7" "user" "zzz" state100).sessions "7").getD []).get? 1 =
          some ⟨"model", ["Understood. The world is ready. I will await the adventurers."]⟩) := by
  exact ⟨by rfl, by decide⟩

/-- C7 (amended): index 0 of every transcript produced by the
operations holds the persona `user` turn — fresh (and reset)
transcripts additionally carry the fixed `model` acknowledgment at
index 1, and `add_message` (with or without consolidation firing)
preserves the persona turn at index 0 — but consolidation replaces the
turn that follows it with the synthetic summary `user` turn, so the
seeded pair does not survive as a unit. -/
theorem C7_head_is_persona
    (env : Env) (u roleStr msg : String) (st : WorldState)
    (hhead : ((lookupSession st.sessions u).getD (initialHistory env.systemPrompt)).head? =
      some ⟨"user", [env.systemPrompt]⟩) :
    (initialHistory env.systemPrompt).head? = some ⟨"user", [env.systemPrompt]⟩ ∧
      (initialHistory env.systemPrompt).get? 1 =
        some ⟨"model", ["Understood. The world is ready. I will await the adventurers."]⟩ ∧
      lookupSession (resetHistory env u st).sessions u = some (initialHistory env.systemPrompt) ∧
      ((lookupSession (addMessage env u roleStr msg st).sessions u).getD []).head? =
        some ⟨"user", [env.systemPrompt]⟩ := by
  refine ⟨rfl, rfl, lookup_setSession_self _ _ _, ?_⟩
  simp only [addMessage, getHistoryS]
  rw [ensure_lookup]
  simp only [Option.getD_some]
  split
  · -- consolidation path
    rcases truncate_sessions_or env u
        ((lookupSession st.sessions u).getD (initialHistory env.systemPrompt))
        { st with sessions := ensureUserDoc env.systemPrompt u st.sessions } with hcase | hcase
    · simp only at hcase
      rw [hcase, ensure_idem, ensure_lookup, lookup_setSession_self]
      simp only [Option.getD_some]
      exact arrayUnion_head? hhead _
    · simp only at hcase
      rw [hcase,
        ensure_of_lookup_some env.systemPrompt (lookup_setSession_self _ _ _),
        lookup_setSession_self, lookup_setSession_self]
      simp only [Option.getD_some]
      refine arrayUnion_head? ?_ _
      simp only [List.cons_append, List.head?_cons]
      rw [headI_of_head? hhead]
  · -- plain append
    rw [ensure_idem, ensure_lookup, lookup_setSession_self]
    simp only [Option.getD_some]
    exact arrayUnion_head? hhead _

/-- C7 witness: a concrete consolidation-crossing append preserves the
persona turn at index 0. -/
theorem C7_witness :
    ((lookupSession state100.sessions "7").getD (initialHistory specEnv.systemPrompt)).head? =
        some ⟨"user", [specEnv.systemPrompt]⟩ ∧
      ((lookupSession (addMessage specEnv "7" "user" "zzz" state100).sessions "7").getD []).head? =
        some ⟨"user", [specEnv.systemPrompt]⟩ :=
  ⟨by decide,
    (C7_head_is_persona specEnv "7" "user" "zzz" state100 (by decide)).2.2.2⟩

/-! ## C6 — the `!newgame` reset path -/

theorem filter_idem {α : Type} (p : α → Bool) (l : List α) :
    (l.filter p).filter p = l.filter p :=
  List.filter_eq_self.mpr (fun _ ha => (List.mem_filter.mp ha).2)

theorem setSession_setSession (s : Sessions) (u : String) (h : List Turn) :
    setSession (setSession s u h) u h = setSession s u h := by
  induction s with
  | nil => simp [setSession]
  | cons p rest ih =>
      by_cases hp : p.1 = u
      · simp [setSession, hp]
      · simp [setSession, hp, ih]

theorem deleteUserData_idem (g : Graph) (u : String) :
    deleteUserData (deleteUserData g u) u = deleteUserData g u := by
  cases g with
  | mk nid ns es =>
      simp only [deleteUserData, filter_idem]

theorem deleteUserCollection_idem (vs : VectorStore) (u : String) :
    deleteUserCollection (deleteUserCollection vs u) u = deleteUserCollection vs u := by
  unfold deleteUserCollection
  exact filter_idem _ _

/-- C6: the confirmed `!newgame` path is one composite reset: it
replaces the user's transcript with the fresh two-turn seeded
transcript, purges the user's graph scope (no node of the user
survives) and the user's vector namespace (no collection of the user
survives), and running the whole reset twice leaves exactly the state
of running it once. -/
theorem C6_resetUser_idempotent (env : Env) (u : String) (st : WorldState) :
    resetUser env u (resetUser env u st) = resetUser env u st ∧
      lookupSession (resetUser env u st).sessions u = some (initialHistory env.systemPrompt) ∧
      (initialHistory env.systemPrompt).length = 2 ∧
      (∀ n ∈ (resetUser env u st).graph.nodes, ¬ getProp n.props "userId" = some u) ∧
      (∀ c ∈ (resetUser env u st).vstore, ¬ c.1 = "user_" ++ u) := by
  refine ⟨?_, lookup_setSession_self _ _ _, rfl, ?_, ?_⟩
  · cases st with
    | mk s g v w q o =>
        simp [resetUser, resetHistory, WorldState.mk.injEq,
          setSession_setSession, deleteUserData_idem, deleteUserCollection_idem]
  · intro n hn
    have hm : n ∈ st.graph.nodes.filter
        (fun n => ¬ getProp n.props "userId" = some u) := hn
    exact of_decide_eq_true (by simpa using (List.mem_filter.mp hm).2)
  · intro c hc
    have hm : c ∈ st.vstore.filter (fun c => ¬ c.1 = "user_" ++ u) := hc
    exact of_decide_eq_true (by simpa using (List.mem_filter.mp hm).2)

/-! ## C5 — relationship-edge creation -/

theorem getProp_setProp_ne (ps : List (String × String)) (k k' v : String)
    (hkk : ¬ k = k') : getProp (setProp ps k' v) k = getProp ps k := by
  unfold setProp
  split
  · unfold getProp
    rw [List.find?_map]
    have hcomp : ((fun (p : String × String) => decide (p.1 = k)) ∘
        (fun p => if p.1 = k' then (k', v) else p)) =
        (fun (p : String × String) => decide (p.1 = k)) := by
      funext p
      by_cases hp : p.1 = k'
      · simp [hp]
      · simp [hp]
    rw [hcomp]
    cases hfind : ps.find? (fun p => decide (p.1 = k)) with
    | none => rfl
    | some p0 =>
        have hp0' := List.find?_some hfind
        have hp0 : p0.1 = k := by simpa using hp0'
        have : ¬ p0.1 = k' := by rw [hp0]; exact hkk
        simp [this]
  · unfold getProp
    rw [List.find?_append]
    have : List.find? (fun (p : String × String) => decide (p.1 = k)) [(k', v)] = none := by
      simp
      exact fun hx => absurd hx.symm hkk
    rw [this]
    cases ps.find? (fun p => decide (p.1 = k)) <;> rfl

theorem getProp_mergeProps_not_mem (p q : List (String × String)) (k : String)
    (hk : k ∉ q.map Prod.fst) : getProp (mergeProps p q) k = getProp p k := by
  induction q generalizing p with
  | nil => rfl
  | cons kv rest ih =>
      simp only [List.map_cons, List.mem_cons, not_or] at hk
      have hstep : mergeProps p (kv :: rest) = mergeProps (setProp p kv.1 kv.2) rest := rfl
      rw [hstep, ih (setProp p kv.1 kv.2) hk.2, getProp_setProp_ne p k kv.1 kv.2 hk.1]

theorem find?_map_pred_inv {α : Type} (f : α → α) (p : α → Bool)
    (hp : ∀ a, p (f a) = p a) (l : List α) :
    (l.map f).find? p = (l.find? p).map f := by
  induction l with
  | nil => rfl
  | cons a t ih =>
      by_cases hpa : p a = true
      · rw [List.map_cons, List.find?_cons_of_pos _ ((hp a).trans hpa),
          List.find?_cons_of_pos _ hpa]
        rfl
      · rw [List.map_cons, List.find?_cons_of_neg _ (by rw [hp a]; simpa using hpa),
          List.find?_cons_of_neg _ (by simpa using hpa), ih]

theorem find?_append_some {α : Type} {p : α → Bool} {l : List α} {x : α}
    (h : l.find? p = some x) (l' : List α) : (l ++ l').find? p = some x := by
  rw [List.find?_append, h]
  rfl

theorem findLabeled_of_append {g g' : Graph} {ty nm u : String} {s : GNode}
    (ns : List GNode) (hn : g'.nodes = g.nodes ++ ns)
    (h : findLabeled g ty nm u = some s) : findLabeled g' ty nm u = some s := by
  unfold findLabeled at h ⊢
  rw [hn]
  exact find?_append_some h ns

theorem findByNameUser_of_append {g g' : Graph} {nm u : String} {t : GNode}
    (ns : List GNode) (hn : g'.nodes = g.nodes ++ ns)
    (h : findByNameUser g nm u = some t) : findByNameUser g' nm u = some t := by
  unfold findByNameUser at h ⊢
  rw [hn]
  exact find?_append_some h ns

theorem linkProp_shape (g : Graph) (u ty nm k v : String) :
    (∃ ns, (linkProp g u ty nm k v).nodes = g.nodes ++ ns) ∧
      ∃ es, (linkProp g u ty nm k v).edges = g.edges ++ es := by
  unfold linkProp
  cases hf : findLabeled g ty nm u with
  | none => exact ⟨⟨[], by simp⟩, ⟨[], by simp⟩⟩
  | some src =>
      cases hb : findByNameUser g v u with
      | some t =>
          simp only []
          split
          · exact ⟨⟨[], by simp⟩, ⟨[], by simp⟩⟩
          · exact ⟨⟨[], by simp⟩, ⟨[⟨src.id, k.toUpper, t.id⟩], rfl⟩⟩
      | none =>
          simp only []
          split
          · exact ⟨⟨[⟨g.nextId, none, [("name", v), ("userId", u)]⟩], rfl⟩, ⟨[], by simp⟩⟩
          · exact ⟨⟨[⟨g.nextId, none, [("name", v), ("userId", u)]⟩], rfl⟩,
              ⟨[⟨src.id, k.toUpper, g.nextId⟩], rfl⟩⟩

theorem linkProp_establish (g : Graph) (u ty nm k v : String) (s : GNode)
    (hs : findLabeled g ty nm u = some s) :
    ∃ t, findByNameUser (linkProp g u ty nm k v) v u = some t ∧
      GEdge.mk s.id k.toUpper t.id ∈ (linkProp g u ty nm k v).edges := by
  unfold linkProp
  rw [hs]
  cases hb : findByNameUser g v u with
  | some t =>
      refine ⟨t, ?_, ?_⟩
      · simp only []
        split
        · exact hb
        · exact hb
      · simp only []
        split
        · rename_i hmem
          exact hmem
        · exact List.mem_append_right _ (List.mem_singleton.mpr rfl)
  | none =>
      refine ⟨⟨g.nextId, none, [("name", v), ("userId", u)]⟩, ?_, ?_⟩
      · have hnew : List.find?
            (fun n => decide (getProp n.props "name" = some v ∧ getProp n.props "userId" = some u))
            [(⟨g.nextId, none, [("name", v), ("userId", u)]⟩ : GNode)] =
            some ⟨g.nextId, none, [("name", v), ("userId", u)]⟩ := by
          apply List.find?_cons_of_pos
          simp [getProp]
        simp only []
        split
        · unfold findByNameUser at hb ⊢
          rw [List.find?_append, hb]
          simpa using hnew
        · unfold findByNameUser at hb ⊢
          rw [List.find?_append, hb]
          simpa using hnew
      · simp only []
        split
        · rename_i hmem
          exact hmem
        · exact List.mem_append_right _ (List.mem_singleton.mpr rfl)

theorem foldLink_facts (u ty nm : String) :
    ∀ (props : List (String × String)) (g : Graph) (s : GNode),
      findLabeled g ty nm u = some s →
      (∃ ns, (props.foldl (fun acc kv => linkProp acc u ty nm kv.1 kv.2) g).nodes =
          g.nodes ++ ns) ∧
        (∃ es, (props.foldl (fun acc kv => linkProp acc u ty nm kv.1 kv.2) g).edges =
          g.edges ++ es) ∧
        findLabeled (props.foldl (fun acc kv => linkProp acc u ty nm kv.1 kv.2) g) ty nm u =
          some s ∧
        ∀ kv ∈ props, ∃ t,
          findByNameUser (props.foldl (fun acc kv => linkProp acc u ty nm kv.1 kv.2) g) kv.2 u =
            some t ∧
          GEdge.mk s.id kv.1.toUpper t.id ∈
            (props.foldl (fun acc kv => linkProp acc u ty nm kv.1 kv.2) g).edges := by
  intro props
  induction props with
  | nil =>
      intro g s hs
      exact ⟨⟨[], by simp⟩, ⟨[], by simp⟩, hs, by simp⟩
  | cons kv rest ih =>
      intro g s hs
      obtain ⟨⟨ns1, hns1⟩, ⟨es1, hes1⟩⟩ := linkProp_shape g u ty nm kv.1 kv.2
      have hs' : findLabeled (linkProp g u ty nm kv.1 kv.2) ty nm u = some s :=
        findLabeled_of_append ns1 hns1 hs
      obtain ⟨t, ht, hte⟩ := linkProp_establish g u ty nm kv.1 kv.2 s hs
      obtain ⟨⟨ns2, hns2⟩, ⟨es2, hes2⟩, hsf, hrest⟩ :=
        ih (linkProp g u ty nm kv.1 kv.2) s hs'
      simp only [List.foldl_cons]
      refine ⟨⟨ns1 ++ ns2, by rw [hns2, hns1, List.append_assoc]⟩,
        ⟨es1 ++ es2, by rw [hes2, hes1, List.append_assoc]⟩, hsf, ?_⟩
      intro kv' hkv'
      rcases List.mem_cons.mp hkv' with heq | hmem
      · subst heq
        exact ⟨t, findByNameUser_of_append ns2 hns2 ht,
          by rw [hes2]; exact List.mem_append_left _ hte⟩
      · exact hrest kv' hmem

theorem linkProp_noop (g : Graph) (u ty nm k v : String) (s t : GNode)
    (hs : findLabeled g ty nm u = some s)
    (ht : findByNameUser g v u = some t)
    (he : GEdge.mk s.id k.toUpper t.id ∈ g.edges) :
    linkProp g u ty nm k v = g := by
  unfold linkProp
  rw [hs, ht]
  simp [he]

theorem foldLink_noop (u ty nm : String) (props : List (String × String)) (g : Graph) :
    (∀ kv ∈ props, linkProp g u ty nm kv.1 kv.2 = g) →
      props.foldl (fun acc kv => linkProp acc u ty nm kv.1 kv.2) g = g := by
  induction props with
  | nil => intro _; rfl
  | cons kv rest ih =>
      intro h
      rw [List.foldl_cons, h kv (List.mem_cons_self kv rest)]
      exact ih (fun kv' h' => h kv' (List.mem_cons_of_mem _ h'))

theorem mergeLabeledNode_find (g : Graph) (u ty nm : String)
    (props : List (String × String))
    (hname : "name" ∉ props.map Prod.fst) (huser : "userId" ∉ props.map Prod.fst) :
    ∃ s, findLabeled (mergeLabeledNode g u ty nm props) ty nm u = some s := by
  unfold mergeLabeledNode
  cases hf : findLabeled g ty nm u with
  | some nd =>
      have hinv : ∀ n : GNode,
          (fun n => decide (n.label = some ty ∧ getProp n.props "name" = some nm ∧
            getProp n.props "userId" = some u))
            (if n.id = nd.id then { n with props := mergeProps n.props props } else n) =
          (fun n => decide (n.label = some ty ∧ getProp n.props "name" = some nm ∧
            getProp n.props "userId" = some u)) n := by
        intro n
        by_cases hid : n.id = nd.id
        · simp only [if_pos hid]
          simp [getProp_mergeProps_not_mem n.props props "name" hname,
            getProp_mergeProps_not_mem n.props props "userId" huser]
        · simp [if_neg hid]
      refine ⟨if nd.id = nd.id then { nd with props := mergeProps nd.props props } else nd, ?_⟩
      unfold findLabeled at hf ⊢
      rw [find?_map_pred_inv _ _ hinv, hf]
      rfl
  | none =>
      refine ⟨⟨g.nextId, some ty, mergeProps [("name", nm), ("userId", u)] props⟩, ?_⟩
      unfold findLabeled at hf ⊢
      rw [List.find?_append, hf]
      have hn : getProp (mergeProps [("name", nm), ("userId", u)] props) "name" = some nm := by
        rw [getProp_mergeProps_not_mem _ props "name" hname]
        simp [getProp]
      have hu : getProp (mergeProps [("name", nm), ("userId", u)] props) "userId" = some u := by
        rw [getProp_mergeProps_not_mem _ props "userId" huser]
        simp [getProp]
      simp [hn, hu]

theorem upsert_edges_noop (u ty nm : String) (props : List (String × String))
    (gA : Graph) (s0 : GNode)
    (hname : "name" ∉ props.map Prod.fst) (huser : "userId" ∉ props.map Prod.fst)
    (hsA : findLabeled gA ty nm u = some s0)
    (hkvA : ∀ kv ∈ props, ∃ t, findByNameUser gA kv.2 u = some t ∧
      GEdge.mk s0.id kv.1.toUpper t.id ∈ gA.edges) :
    (props.foldl (fun acc kv => linkProp acc u ty nm kv.1 kv.2)
      (mergeLabeledNode gA u ty nm props)).edges = gA.edges := by
  have hmatch : mergeLabeledNode gA u ty nm props =
      { gA with nodes := (gA.nodes.map (fun n =>
          if n.id = s0.id then { n with props := mergeProps n.props props } else n)) } := by
    unfold mergeLabeledNode
    rw [hsA]
  have hfid : ∀ n : GNode,
      ((fun n => if n.id = s0.id then { n with props := mergeProps n.props props } else n) n).id =
        n.id := by
    intro n
    by_cases hid : n.id = s0.id <;> simp [hid]
  have hinvL : ∀ n : GNode,
      (fun n => decide (n.label = some ty ∧ getProp n.props "name" = some nm ∧
        getProp n.props "userId" = some u))
        ((fun n => if n.id = s0.id then { n with props := mergeProps n.props props } else n) n) =
      (fun n => decide (n.label = some ty ∧ getProp n.props "name" = some nm ∧
        getProp n.props "userId" = some u)) n := by
    intro n
    by_cases hid : n.id = s0.id
    · simp only [if_pos hid]
      simp [getProp_mergeProps_not_mem n.props props "name" hname,
        getProp_mergeProps_not_mem n.props props "userId" huser]
    · simp [if_neg hid]
  have hinvB : ∀ (v : String) (n : GNode),
      (fun n => decide (getProp n.props "name" = some v ∧ getProp n.props "userId" = some u))
        ((fun n => if n.id = s0.id then { n with props := mergeProps n.props props } else n) n) =
      (fun n => decide (getProp n.props "name" = some v ∧ getProp n.props "userId" = some u)) n := by
    intro v n
    by_cases hid : n.id = s0.id
    · simp only [if_pos hid]
      simp [getProp_mergeProps_not_mem n.props props "name" hname,
        getProp_mergeProps_not_mem n.props props "userId" huser]
    · simp [if_neg hid]
  have hedgesB : (mergeLabeledNode gA u ty nm props).edges = gA.edges := by
    rw [hmatch]
  have hsB : findLabeled (mergeLabeledNode gA u ty nm props) ty nm u =
      some ((fun n => if n.id = s0.id then { n with props := mergeProps n.props props } else n) s0) := by
    rw [hmatch]
    unfold findLabeled at hsA ⊢
    rw [find?_map_pred_inv _ _ hinvL, hsA]
    rfl
  have hnoop : ∀ kv ∈ props,
      linkProp (mergeLabeledNode gA u ty nm props) u ty nm kv.1 kv.2 =
        mergeLabeledNode gA u ty nm props := by
    intro kv hkv
    obtain ⟨t, ht, hte⟩ := hkvA kv hkv
    have htB : findByNameUser (mergeLabeledNode gA u ty nm props) kv.2 u =
        some ((fun n => if n.id = s0.id then { n with props := mergeProps n.props props } else n) t) := by
      rw [hmatch]
      unfold findByNameUser at ht ⊢
      rw [find?_map_pred_inv _ _ (hinvB kv.2), ht]
      rfl
    refine linkProp_noop _ u ty nm kv.1 kv.2 _ _ hsB htB ?_
    rw [hfid s0, hfid t, hedgesB]
    exact hte
  rw [foldLink_noop u ty nm props _ hnoop, hedgesB]

/-- C5 counterexample: upserting `Blorf` (a `Character` whose
`workplace` property is `"The Gilded Mug"`) into an empty graph, where
no entity named `The Gilded Mug` exists, still creates a directed
`WORKPLACE` edge — and fabricates a fresh unlabeled target node named
`The Gilded Mug` — contradicting the claim that an edge is created only
when the value matches an already-existing entity and that no target
node is fabricated. -/
theorem C5_counterexample :
    findByNameUser emptyGraph "The Gilded Mug" "u1" = none ∧
      findByNameUser (addOrUpdateEntity "u1" sampleEntity emptyGraph).1 "The Gilded Mug" "u1" =
        some ⟨1, none, [("name", "The Gilded Mug"), ("userId", "u1")]⟩ ∧
      GEdge.mk 0 ("workplace".toUpper) 1 ∈
        ((addOrUpdateEntity "u1" sampleEntity emptyGraph).1).edges := by
  refine ⟨rfl, by decide, ?_⟩
  show GEdge.mk 0 ("workplace".toUpper) 1 ∈ [GEdge.mk 0 ("workplace".toUpper) 1]
  exact List.mem_singleton.mpr rfl

/-- C5 (amended): for every string-valued property of an upserted
entity, a directed edge labeled with the upper-cased property key is
created from the (labeled) source node to a target node whose `name` is
the property's value — the target being found in the user's scope when
a node with that name exists, and otherwise freshly created (fabricated
as an unlabeled node, contrary to the original claim) — and re-running
the identical upsert leaves the edge set unchanged (edge creation is
idempotent).  The entity's property keys are assumed not to rebind the
`name`/`userId` properties that Neo4j uses as the merge key. -/
theorem C5_relationship_edges
    (u nm : String) (oty : Option String) (props : List (String × String)) (g : Graph)
    (hnm : ¬ nm = "")
    (hname : "name" ∉ props.map Prod.fst)
    (huser : "userId" ∉ props.map Prod.fst) :
    ∃ s, findLabeled ((addOrUpdateEntity u ⟨some nm, oty, props⟩ g).1)
        (entityTypeOf ⟨some nm, oty, props⟩) nm u = some s ∧
      (∀ kv ∈ props, ∃ t,
        findByNameUser ((addOrUpdateEntity u ⟨some nm, oty, props⟩ g).1) kv.2 u = some t ∧
        GEdge.mk s.id kv.1.toUpper t.id ∈
          ((addOrUpdateEntity u ⟨some nm, oty, props⟩ g).1).edges) ∧
      ((addOrUpdateEntity u ⟨some nm, oty, props⟩
          ((addOrUpdateEntity u ⟨some nm, oty, props⟩ g).1)).1).edges =
        ((addOrUpdateEntity u ⟨some nm, oty, props⟩ g).1).edges := by
  have hred : ∀ g' : Graph, (addOrUpdateEntity u ⟨some nm, oty, props⟩ g').1 =
      props.foldl (fun acc kv => linkProp acc u (oty.getD "Thing") nm kv.1 kv.2)
        (mergeLabeledNode g' u (oty.getD "Thing") nm props) := by
    intro g'
    simp [addOrUpdateEntity, hnm, entityTypeOf]
  have hty : entityTypeOf ⟨some nm, oty, props⟩ = oty.getD "Thing" := rfl
  obtain ⟨s0, hs0⟩ := mergeLabeledNode_find g u (oty.getD "Thing") nm props hname huser
  obtain ⟨⟨nsA, hnsA⟩, ⟨esA, hesA⟩, hsA, hkvA⟩ :=
    foldLink_facts u (oty.getD "Thing") nm props (mergeLabeledNode g u (oty.getD "Thing") nm props)
      s0 hs0
  refine ⟨s0, ?_, ?_, ?_⟩
  · rw [hty, hred g]
    exact hsA
  · intro kv hkv
    obtain ⟨t, ht, hte⟩ := hkvA kv hkv
    exact ⟨t, by rw [hred g]; exact ht, by rw [hred g]; exact hte⟩
  · rw [hred g, hred (props.foldl (fun acc kv => linkProp acc u (oty.getD "Thing") nm kv.1 kv.2)
      (mergeLabeledNode g u (oty.getD "Thing") nm props))]
    exact upsert_edges_noop u (oty.getD "Thing") nm props _ s0 hname huser hsA hkvA

/-- C5 witness: the amended statement instantiated at the `Blorf`
entity over the empty graph. -/
theorem C5_witness :
    (¬ "Blorf" = "") ∧
      ("name" ∉ [("workplace", "The Gilded Mug")].map Prod.fst) ∧
      ("userId" ∉ [("workplace", "The Gilded Mug")].map Prod.fst) ∧
      (∃ s, findLabeled ((addOrUpdateEntity "u1"
            ⟨some "Blorf", some "Character", [("workplace", "The Gilded Mug")]⟩ emptyGraph).1)
          (entityTypeOf ⟨some "Blorf", some "Character", [("workplace", "The Gilded Mug")]⟩)
          "Blorf" "u1" = some s ∧
        (∀ kv ∈ [("workplace", "The Gilded Mug")], ∃ t,
          findByNameUser ((addOrUpdateEntity "u1"
              ⟨some "Blorf", some "Character", [("workplace", "The Gilded Mug")]⟩ emptyGraph).1)
            kv.2 "u1" = some t ∧
          GEdge.mk s.id kv.1.toUpper t.id ∈
            ((addOrUpdateEntity "u1"
              ⟨some "Blorf", some "Character", [("workplace", "The Gilded Mug")]⟩ emptyGraph).1).edges) ∧
        ((addOrUpdateEntity "u1"
            ⟨some "Blorf", some "Character", [("workplace", "The Gilded Mug")]⟩
            ((addOrUpdateEntity "u1"
              ⟨some "Blorf", some "Character", [("workplace", "The Gilded Mug")]⟩ emptyGraph).1)).1).edges =
          ((addOrUpdateEntity "u1"
            ⟨some "Blorf", some "Character", [("workplace", "The Gilded Mug")]⟩ emptyGraph).1).edges) :=
  ⟨by decide, by decide, by decide,
    C5_relationship_edges "u1" "Blorf" (some "Character") [("workplace", "The Gilded Mug")]
      emptyGraph (by decide) (by decide) (by decide)⟩

end DMBot
